import Mathlib

/-!
Verification development for the procedural particle animation engine
(`src/js/components/ParticleSystem.js` and the particle shader material).

The per-particle numeric state is embedded over the real numbers.  Every
division whose denominator is a computed expression is translated through
`checkedDiv`, which returns `none` exactly when the denominator is zero;
`none` therefore marks the places where the JavaScript source would have
produced a non-finite value (NaN / Infinity) by dividing by zero.  All
other operations of the source (`Math.sin`, `Math.cos`, `Math.sqrt` of a
sum of squares, `Math.atan2`, `Math.acos`) are total real functions and
are embedded as such.
-/

set_option linter.unusedVariables false

noncomputable section

namespace ParticleSystem

/-- Three-component vector, the embedding of `THREE.Vector3` (and of an
`(r,g,b)` color triple, the embedding of `THREE.Color`). -/
structure Vec3 where
  x : ℝ
  y : ℝ
  z : ℝ

/-- Division that fails (returns `none`) exactly on a zero denominator.
This marks every spot where the JavaScript source could divide by zero. -/
def checkedDiv (a b : ℝ) : Option ℝ :=
  if b = 0 then none else some (a / b)

/-- Embedding of `Math.atan2(y, x)` as the argument of the complex number
`x + y·i` (same convention: result in `(-π, π]`, and `atan2 0 0 = 0`). -/
def atan2 (y x : ℝ) : ℝ := Complex.arg ⟨x, y⟩

/-- Embedding of `THREE.Vector3.length()`. -/
def vecLength (v : Vec3) : ℝ := Real.sqrt (v.x ^ 2 + v.y ^ 2 + v.z ^ 2)

/-- Embedding of `a.distanceTo(b)` on `THREE.Vector3`. -/
def distanceTo (a b : Vec3) : ℝ :=
  Real.sqrt ((a.x - b.x) ^ 2 + (a.y - b.y) ^ 2 + (a.z - b.z) ^ 2)

/-- Embedding of `THREE.Vector3.normalize()`, which divides by
`this.length() || 1`: a zero length is replaced by `1` before the
division (`divideScalar` multiplies by the reciprocal). -/
def jsNormalize (v : Vec3) : Option Vec3 :=
  let len := vecLength v
  let d := if len = 0 then 1 else len
  (checkedDiv 1 d).map fun inv => ⟨v.x * inv, v.y * inv, v.z * inv⟩

/-- Embedding of `THREE.Color.lerpColors(c1, c2, alpha)` componentwise. -/
def lerpColors (c1 c2 : Vec3) (alpha : ℝ) : Vec3 :=
  ⟨c1.x + (c2.x - c1.x) * alpha,
   c1.y + (c2.y - c1.y) * alpha,
   c1.z + (c2.z - c1.z) * alpha⟩

/-- The five per-particle attribute arrays, indexed by particle number. -/
structure Population where
  positions : ℕ → Vec3
  velocities : ℕ → Vec3
  colors : ℕ → Vec3
  sizes : ℕ → ℝ
  phases : ℕ → ℝ

/-- The mutable state of a `ParticleSystem` instance (the fields the
animation logic reads and writes; canvas/camera/renderer are omitted). -/
structure SystemState where
  pop : Population
  particleCount : ℕ
  particleSize : ℝ
  particleShape : String
  baseColor : Vec3
  accentColor : Vec3
  colorTransition : Bool
  time : ℝ
  speed : ℝ
  rotationSpeed : ℝ
  isPlaying : Bool
  currentPreset : String
  mouseInteraction : Bool
  mouseInfluence : ℝ
  mouseX : ℝ
  mouseY : ℝ

/-- Embedding of `createParticles`: each particle draws nine random
numbers in creation order (radius, theta, phi, three velocity
components, color blend factor, size, phase) from the stream `rng`;
particle `i` uses draws `9*i` through `9*i+8`. -/
def createParticles (particleSize : ℝ) (baseColor accentColor : Vec3)
    (rng : ℕ → ℝ) : Population :=
  { positions := fun i =>
      let radius := rng (9 * i) * 80 + 20
      let theta := rng (9 * i + 1) * (2 * Real.pi)
      let phi := Real.arccos (2 * rng (9 * i + 2) - 1)
      ⟨radius * Real.sin phi * Real.cos theta,
       radius * Real.sin phi * Real.sin theta,
       radius * Real.cos phi⟩
    velocities := fun i =>
      ⟨(rng (9 * i + 3) - 0.5) * 0.02,
       (rng (9 * i + 4) - 0.5) * 0.02,
       (rng (9 * i + 5) - 0.5) * 0.02⟩
    colors := fun i => lerpColors baseColor accentColor (rng (9 * i + 6))
    sizes := fun i => rng (9 * i + 7) * particleSize + 0.5
    phases := fun i => rng (9 * i + 8) * (2 * Real.pi) }

/-- Embedding of `applyGalaxyAnimation`: differential rotation of the
`(x,z)` polar angle, rate `0.001 / (distance * 0.01 + 1)`, plus a small
vertical bob. -/
def applyGalaxyAnimation (p : Vec3) (index : ℕ) (time : ℝ) : Option Vec3 :=
  let distance := Real.sqrt (p.x * p.x + p.z * p.z)
  let angle := atan2 p.z p.x
  (checkedDiv 0.001 (distance * 0.01 + 1)).map fun rotSpeed =>
    let newAngle := angle + rotSpeed * time
    ⟨distance * Real.cos newAngle,
     p.y + Real.sin (time * 0.5 + (index : ℝ) * 0.01) * 0.1,
     distance * Real.sin newAngle⟩

/-- Embedding of `applyNebulaAnimation`. -/
def applyNebulaAnimation (p : Vec3) (index : ℕ) (time : ℝ) : Vec3 :=
  let noise := Real.sin (time * 0.3 + (index : ℝ) * 0.1) *
    Real.cos (time * 0.2 + (index : ℝ) * 0.05)
  ⟨p.x + noise * 0.2,
   p.y + Real.sin (time * 0.4 + (index : ℝ) * 0.08) * 0.15,
   p.z + Real.cos (time * 0.35 + (index : ℝ) * 0.06) * 0.18⟩

/-- The pulsing factor of the explosion preset,
`Math.sin(time * 0.5) * 0.5 + 0.5`. -/
def explosionFactor (time : ℝ) : ℝ := Real.sin (time * 0.5) * 0.5 + 0.5

/-- Embedding of `applyExplosionAnimation`: displace the current position
along its own normalized direction-from-origin by `explosionFactor * 2`. -/
def applyExplosionAnimation (p : Vec3) (index : ℕ) (time : ℝ) : Option Vec3 :=
  (jsNormalize p).map fun direction =>
    ⟨p.x + direction.x * (explosionFactor time * 2),
     p.y + direction.y * (explosionFactor time * 2),
     p.z + direction.z * (explosionFactor time * 2)⟩

/-- Total form of the explosion step (the normalization guard makes the
checked computation succeed on every input, see
`applyExplosionAnimation_eq`). -/
def applyExplosionStep (p : Vec3) (index : ℕ) (time : ℝ) : Vec3 :=
  (applyExplosionAnimation p index time).getD p

/-- Embedding of `applyWaveAnimation`. -/
def applyWaveAnimation (p : Vec3) (index : ℕ) (time : ℝ) : Vec3 :=
  let waveHeight := Real.sin (p.x * 0.05 + time) * 10
  ⟨p.x, waveHeight + Real.sin (time * 2 + (index : ℝ) * 0.1) * 2, p.z⟩

/-- Embedding of `applySpiralAnimation`: keeps the `(x,z)` radius and the
height, rotates the polar angle by `time * 0.5 + height * 0.01`. -/
def applySpiralAnimation (p : Vec3) (index : ℕ) (time : ℝ) : Vec3 :=
  let height := p.y
  let radius := Real.sqrt (p.x * p.x + p.z * p.z)
  let angle := atan2 p.z p.x + time * 0.5 + height * 0.01
  ⟨radius * Real.cos angle, p.y, radius * Real.sin angle⟩

/-- Embedding of `applyAuroraAnimation`. -/
def applyAuroraAnimation (p : Vec3) (index : ℕ) (time : ℝ) : Vec3 :=
  let wave1 := Real.sin (p.x * 0.02 + time * 2) * 5
  let wave2 := Real.cos (p.z * 0.03 + time * 1.5) * 3
  ⟨p.x, wave1 + wave2 + Real.sin (time + (index : ℝ) * 0.1) * 2, p.z⟩

/-- Embedding of `applyPresetAnimation`: dispatch on the preset name;
every name other than the six special-cased ones falls through to the
`default` branch, which leaves the position unchanged. -/
def applyPresetAnimation (preset : String) (p : Vec3) (index : ℕ)
    (time : ℝ) : Option Vec3 :=
  if preset = "galaxy" then applyGalaxyAnimation p index time
  else if preset = "nebula" then some (applyNebulaAnimation p index time)
  else if preset = "explosion" then applyExplosionAnimation p index time
  else if preset = "wave" then some (applyWaveAnimation p index time)
  else if preset = "spiral" then some (applySpiralAnimation p index time)
  else if preset = "aurora" then some (applyAuroraAnimation p index time)
  else some p

/-- Embedding of the mouse-interaction block of `updateParticles`:
repulsion away from the pointer point `(mouseX*10, mouseY*10, 0)` with
linear falloff over 50 world units. -/
def applyMouseInteraction (mouseX mouseY influenceStrength : ℝ)
    (p : Vec3) : Option Vec3 :=
  let mouseInfluenceVector : Vec3 := ⟨mouseX * 10, mouseY * 10, 0⟩
  let distance := distanceTo p mouseInfluenceVector
  let influence := max 0 (1 - distance / 50)
  (jsNormalize ⟨p.x - mouseInfluenceVector.x, p.y - mouseInfluenceVector.y,
      p.z - mouseInfluenceVector.z⟩).map fun direction =>
    ⟨p.x + direction.x * (influence * influenceStrength),
     p.y + direction.y * (influence * influenceStrength),
     p.z + direction.z * (influence * influenceStrength)⟩

/-- One particle's position update in `updateParticles`: preset motion,
then optional mouse interaction, then the phase-keyed jitter. -/
def updateParticleChecked (s : SystemState) (i : ℕ) : Option Vec3 := do
  let position := s.pop.positions i
  let afterPreset ← applyPresetAnimation s.currentPreset position i s.time
  let afterMouse ←
    if s.mouseInteraction = true then
      applyMouseInteraction s.mouseX s.mouseY s.mouseInfluence afterPreset
    else pure afterPreset
  pure ⟨afterMouse.x + Real.sin (s.time + s.pop.phases i) * 0.5,
        afterMouse.y + Real.cos (s.time + s.pop.phases i) * 0.5,
        afterMouse.z + Real.sin (s.time * 0.5 + s.pop.phases i) * 0.3⟩

/-- Embedding of `updateParticles`: rewrite the position of every
particle below `particleCount`, and, when `colorTransition` is on,
rewrite its color by the phase-offset oscillating blend. -/
def updateParticles (s : SystemState) : SystemState :=
  { s with pop :=
    { s.pop with
      positions := fun i =>
        if i < s.particleCount then
          (updateParticleChecked s i).getD (s.pop.positions i)
        else s.pop.positions i
      colors := fun i =>
        if s.colorTransition = true ∧ i < s.particleCount then
          lerpColors s.baseColor s.accentColor
            ((Real.sin (s.time * 0.5 + s.pop.phases i) + 1) / 2)
        else s.pop.colors i } }

/-- Embedding of one invocation of the `animate` frame callback: bail out
when not playing, otherwise advance time by `0.016 * speed` (the source's
fixed nominal frame interval) and update the particles. -/
def animate (s : SystemState) : SystemState :=
  if s.isPlaying = true then
    updateParticles { s with time := s.time + 0.016 * s.speed }
  else s

/-- Embedding of `pause`: clear the playing flag (and cancel the pending
scheduled frame, which has no effect on the simulation state). -/
def pause (s : SystemState) : SystemState := { s with isPlaying := false }

/-- Embedding of `resume`: when paused, set the playing flag and invoke
`animate` (the source calls `this.animate()` directly, so the first frame
body runs inside `resume` itself). -/
def resume (s : SystemState) : SystemState :=
  if s.isPlaying = true then s else animate { s with isPlaying := true }

/-- Embedding of `start`. -/
def start (s : SystemState) : SystemState :=
  animate { s with isPlaying := true }

/-- Embedding of `reset`: zero the clock and recreate the population. -/
def reset (s : SystemState) (rng : ℕ → ℝ) : SystemState :=
  { s with
    time := 0
    pop := createParticles s.particleSize s.baseColor s.accentColor rng }

/-- A property-update request: each field is `some v` when the caller
supplied it and `none` when absent (JavaScript `undefined`). -/
structure UpdateProps where
  particleCount : Option ℕ
  particleSize : Option ℝ
  particleShape : Option String
  baseColor : Option Vec3
  accentColor : Option Vec3
  speed : Option ℝ
  rotationSpeed : Option ℝ
  colorTransition : Option Bool
  mouseInteraction : Option Bool
  mouseInfluence : Option ℝ
  currentPreset : Option String

/-- The `needsRecreate` condition of `updateProperties`: a supplied
`particleCount` different from the current one, or a supplied
`particleShape` different from the current one. -/
def needsRecreate (s : SystemState) (props : UpdateProps) : Bool :=
  (match props.particleCount with
   | some c => c != s.particleCount
   | none => false) ||
  (match props.particleShape with
   | some sh => sh != s.particleShape
   | none => false)

/-- The `Object.assign(this, properties)` step of `updateProperties`:
every supplied field overwrites the corresponding state field. -/
def assignProps (s : SystemState) (props : UpdateProps) : SystemState :=
  { s with
    particleCount := props.particleCount.getD s.particleCount
    particleSize := props.particleSize.getD s.particleSize
    particleShape := props.particleShape.getD s.particleShape
    baseColor := props.baseColor.getD s.baseColor
    accentColor := props.accentColor.getD s.accentColor
    speed := props.speed.getD s.speed
    rotationSpeed := props.rotationSpeed.getD s.rotationSpeed
    colorTransition := props.colorTransition.getD s.colorTransition
    mouseInteraction := props.mouseInteraction.getD s.mouseInteraction
    mouseInfluence := props.mouseInfluence.getD s.mouseInfluence
    currentPreset := props.currentPreset.getD s.currentPreset }

/-- Embedding of `updateProperties`: decide `needsRecreate` from the old
state, merge the supplied properties, then recreate the population only
when required (otherwise only material uniforms are refreshed, which
leaves the population untouched). -/
def updateProperties (s : SystemState) (props : UpdateProps)
    (rng : ℕ → ℝ) : SystemState :=
  let merged := assignProps s props
  if needsRecreate s props then
    { merged with
      pop := createParticles merged.particleSize merged.baseColor merged.accentColor rng }
  else merged

/-- Embedding of `ParticleShaderMaterial.getShapeType`:
`shapeMap[shapeName] || 0`. -/
def getShapeType (shapeName : String) : ℕ :=
  if shapeName = "circle" then 0
  else if shapeName = "square" then 1
  else if shapeName = "star" then 2
  else if shapeName = "heart" then 3
  else 0

/-- Embedding of `ParticleShaderMaterial.getShapeName`:
`typeMap[shapeType] || 'circle'`. -/
def getShapeName (shapeType : ℕ) : String :=
  if shapeType = 0 then "circle"
  else if shapeType = 1 then "square"
  else if shapeType = 2 then "star"
  else if shapeType = 3 then "heart"
  else "circle"

/-- A concrete population used by the concrete witness states. -/
def samplePop : Population :=
  { positions := fun _ => ⟨30, 40, 0⟩
    velocities := fun _ => ⟨0.01, 0, 0⟩
    colors := fun _ => ⟨1, 0.42, 0.42⟩
    sizes := fun _ => 1.5
    phases := fun _ => 1 }

/-- A concrete playing state (5000 particles, explosion preset) used to
instantiate theorems with hypotheses. -/
def sampleState : SystemState :=
  { pop := samplePop
    particleCount := 5000
    particleSize := 2
    particleShape := "circle"
    baseColor := ⟨1, 0.42, 0.42⟩
    accentColor := ⟨0.31, 0.8, 0.77⟩
    colorTransition := true
    time := 0
    speed := 1
    rotationSpeed := 0.5
    isPlaying := true
    currentPreset := "explosion"
    mouseInteraction := true
    mouseInfluence := 0.1
    mouseX := 0
    mouseY := 0 }

/-- The sample state with color transition switched off. -/
def sampleStateStatic : SystemState := { sampleState with colorTransition := false }

/-- A property-update request that supplies only `baseColor`. -/
def sampleBaseColorProps : UpdateProps :=
  { particleCount := none
    particleSize := none
    particleShape := none
    baseColor := some ⟨0.4, 0.49, 0.92⟩
    accentColor := none
    speed := none
    rotationSpeed := none
    colorTransition := none
    mouseInteraction := none
    mouseInfluence := none
    currentPreset := none }

/-- A concrete random stream for witnesses. -/
def sampleRng : ℕ → ℝ := fun _ => 0.5

theorem checkedDiv_of_ne (a b : ℝ) (hb : b ≠ 0) :
    checkedDiv a b = some (a / b) := by
  simp [checkedDiv, hb]

theorem normDenom_ne (len : ℝ) : (if len = 0 then (1 : ℝ) else len) ≠ 0 := by
  split_ifs with h
  · norm_num
  · exact h

theorem jsNormalize_isSome (v : Vec3) : (jsNormalize v).isSome = true := by
  simp only [jsNormalize]
  rw [checkedDiv_of_ne _ _ (normDenom_ne (vecLength v))]
  rfl

theorem jsNormalize_of_ne (v : Vec3) (h : vecLength v ≠ 0) :
    jsNormalize v = some ⟨v.x * (1 / vecLength v), v.y * (1 / vecLength v),
      v.z * (1 / vecLength v)⟩ := by
  simp only [jsNormalize]
  rw [if_neg h, checkedDiv_of_ne _ _ h]
  rfl

theorem galaxyDenom_pos (p : Vec3) :
    0 < Real.sqrt (p.x * p.x + p.z * p.z) * 0.01 + 1 := by
  have h := Real.sqrt_nonneg (p.x * p.x + p.z * p.z)
  nlinarith

theorem applyGalaxyAnimation_isSome (p : Vec3) (index : ℕ) (time : ℝ) :
    (applyGalaxyAnimation p index time).isSome = true := by
  simp only [applyGalaxyAnimation]
  rw [checkedDiv_of_ne _ _ (ne_of_gt (galaxyDenom_pos p))]
  rfl

theorem applyExplosionAnimation_isSome (p : Vec3) (index : ℕ) (time : ℝ) :
    (applyExplosionAnimation p index time).isSome = true := by
  simp only [applyExplosionAnimation]
  obtain ⟨w, hw⟩ := Option.isSome_iff_exists.mp (jsNormalize_isSome p)
  rw [hw]
  rfl

theorem applyPresetAnimation_isSome (preset : String) (p : Vec3) (index : ℕ)
    (time : ℝ) : (applyPresetAnimation preset p index time).isSome = true := by
  unfold applyPresetAnimation
  split_ifs
  · exact applyGalaxyAnimation_isSome p index time
  · rfl
  · exact applyExplosionAnimation_isSome p index time
  · rfl
  · rfl
  · rfl
  · rfl

theorem applyMouseInteraction_isSome (mouseX mouseY influenceStrength : ℝ)
    (p : Vec3) :
    (applyMouseInteraction mouseX mouseY influenceStrength p).isSome = true := by
  simp only [applyMouseInteraction]
  obtain ⟨w, hw⟩ := Option.isSome_iff_exists.mp
    (jsNormalize_isSome ⟨p.x - mouseX * 10, p.y - mouseY * 10, p.z - 0⟩)
  rw [hw]
  rfl

theorem updateParticleChecked_isSome (s : SystemState) (i : ℕ) :
    (updateParticleChecked s i).isSome = true := by
  obtain ⟨w, hw⟩ := Option.isSome_iff_exists.mp
    (applyPresetAnimation_isSome s.currentPreset (s.pop.positions i) i s.time)
  by_cases hm : s.mouseInteraction = true
  · obtain ⟨d, hd⟩ := Option.isSome_iff_exists.mp
      (applyMouseInteraction_isSome s.mouseX s.mouseY s.mouseInfluence w)
    simp [updateParticleChecked, hw, hm, hd]
  · simp [updateParticleChecked, hw, hm]

/-- C1: for every system state (any of the seven presets or any other
preset string, pointer interaction on or off, any particle positions,
including everything reachable after any number of frame advances from
any creation), the checked per-particle update succeeds: no division by
zero occurs anywhere, so every position component stays a (finite) real
number; in particular the preset dispatch is defined at a radius-zero
particle `(0, y, 0)`, covering the galaxy and spiral presets. -/
theorem update_never_divides_by_zero (s : SystemState) (n i index : ℕ)
    (y t : ℝ) (preset : String) :
    (updateParticleChecked s i).isSome = true ∧
    (updateParticleChecked (animate^[n] s) i).isSome = true ∧
    (applyPresetAnimation preset ⟨0, y, 0⟩ index t).isSome = true :=
  ⟨updateParticleChecked_isSome s i, updateParticleChecked_isSome _ i,
   applyPresetAnimation_isSome preset ⟨0, y, 0⟩ index t⟩

theorem sqrt_rotation (r a : ℝ) (hr : 0 ≤ r) :
    Real.sqrt ((r * Real.cos a) ^ 2 + (r * Real.sin a) ^ 2) = r := by
  have h1 : (r * Real.cos a) ^ 2 + (r * Real.sin a) ^ 2 = r ^ 2 := by
    calc (r * Real.cos a) ^ 2 + (r * Real.sin a) ^ 2
        = r ^ 2 * (Real.sin a ^ 2 + Real.cos a ^ 2) := by ring
      _ = r ^ 2 := by rw [Real.sin_sq_add_cos_sq]; ring
  rw [h1, Real.sqrt_sq hr]

/-- C2: one application of the spiral preset (which is exactly what the
preset dispatch runs for the name "spiral") leaves the `y` coordinate
unchanged and preserves the `(x,z)` radius exactly, for every position,
index and time. -/
theorem spiral_preserves_height_and_radius (p : Vec3) (index : ℕ)
    (time : ℝ) :
    applyPresetAnimation "spiral" p index time
      = some (applySpiralAnimation p index time) ∧
    (applySpiralAnimation p index time).y = p.y ∧
    Real.sqrt ((applySpiralAnimation p index time).x ^ 2 +
        (applySpiralAnimation p index time).z ^ 2)
      = Real.sqrt (p.x ^ 2 + p.z ^ 2) := by
  refine ⟨rfl, rfl, ?_⟩
  simp only [applySpiralAnimation]
  rw [sqrt_rotation _ _ (Real.sqrt_nonneg _)]
  congr 1
  ring

theorem animate_not_playing (s : SystemState) (h : s.isPlaying = false) :
    animate s = s := by
  unfold animate
  rw [h]
  simp

theorem animate_time (s : SystemState) :
    (animate s).time =
      if s.isPlaying = true then s.time + 0.016 * s.speed else s.time := by
  unfold animate
  split_ifs <;> rfl

theorem animate_speed (s : SystemState) : (animate s).speed = s.speed := by
  unfold animate
  split_ifs <;> rfl

theorem animate_isPlaying (s : SystemState) :
    (animate s).isPlaying = s.isPlaying := by
  unfold animate
  split_ifs <;> rfl

theorem animate_colorTransition (s : SystemState) :
    (animate s).colorTransition = s.colorTransition := by
  unfold animate
  split_ifs <;> rfl

theorem animate_phases (s : SystemState) :
    (animate s).pop.phases = s.pop.phases := by
  unfold animate
  split_ifs <;> rfl

theorem iterate_animate_isPlaying (s : SystemState) (n : ℕ) :
    (animate^[n] s).isPlaying = s.isPlaying := by
  induction n with
  | zero => rfl
  | succ n ih => rw [Function.iterate_succ_apply', animate_isPlaying, ih]

theorem iterate_animate_speed (s : SystemState) (n : ℕ) :
    (animate^[n] s).speed = s.speed := by
  induction n with
  | zero => rfl
  | succ n ih => rw [Function.iterate_succ_apply', animate_speed, ih]

theorem iterate_animate_colorTransition (s : SystemState) (n : ℕ) :
    (animate^[n] s).colorTransition = s.colorTransition := by
  induction n with
  | zero => rfl
  | succ n ih => rw [Function.iterate_succ_apply', animate_colorTransition, ih]

theorem iterate_animate_phases (s : SystemState) (n : ℕ) :
    (animate^[n] s).pop.phases = s.pop.phases := by
  induction n with
  | zero => rfl
  | succ n ih => rw [Function.iterate_succ_apply', animate_phases, ih]

theorem iterate_animate_time (s : SystemState) (h : s.isPlaying = true)
    (n : ℕ) : (animate^[n] s).time = s.time + n * (0.016 * s.speed) := by
  induction n with
  | zero => simp
  | succ n ih =>
    rw [Function.iterate_succ_apply', animate_time,
      iterate_animate_isPlaying, h, if_pos rfl, ih, iterate_animate_speed]
    push_cast
    ring

theorem pause_set_playing (s : SystemState) (h : s.isPlaying = true) :
    { pause s with isPlaying := true } = s := by
  cases s with
  | mk pop pc psz psh bc ac ct tm sp rs ip cp mi minf mx my =>
    have h' : ip = true := h
    subst h'
    rfl

/-- C3: from a playing state, pausing and then invoking the frame
callback any number of times leaves the whole state (elapsed time and all
five attribute arrays) exactly at its pre-pause value, and calling
`resume` (whose body runs the next frame, since the source's `resume`
invokes `animate` directly) produces exactly the state that one frame
advance without the pause/resume pair would have produced. -/
theorem pause_freezes_and_resume_continues (s : SystemState)
    (h : s.isPlaying = true) (k : ℕ) :
    animate^[k] (pause s) = pause s ∧
    (pause s).time = s.time ∧
    (pause s).pop = s.pop ∧
    resume (animate^[k] (pause s)) = animate s := by
  have hfix : animate (pause s) = pause s := animate_not_playing (pause s) rfl
  have hiter : animate^[k] (pause s) = pause s := Function.iterate_fixed hfix k
  refine ⟨hiter, rfl, rfl, ?_⟩
  rw [hiter]
  show resume (pause s) = animate s
  unfold resume
  have hp : (pause s).isPlaying = false := rfl
  rw [hp]
  simp only [Bool.false_eq_true, if_false]
  rw [pause_set_playing s h]

/-- Closed instance of `pause_freezes_and_resume_continues` at the
concrete playing state `sampleState` and five paused callback
invocations. -/
theorem pause_resume_witness :
    animate^[5] (pause sampleState) = pause sampleState ∧
    (pause sampleState).time = sampleState.time ∧
    (pause sampleState).pop = sampleState.pop ∧
    resume (animate^[5] (pause sampleState)) = animate sampleState :=
  pause_freezes_and_resume_continues sampleState rfl 5

/-- C5: one frame advances the clock by the source's fixed nominal frame
interval `0.016` times `speed` (and leaves it unchanged when paused), the
clock never decreases for a nonnegative speed, and from the concrete
state with 5000 particles, the explosion preset, `speed = 1` and
`time = 0`, sixty frames end at `0.96`, within `0.04` of `1.0`. -/
theorem time_advance_per_frame (s : SystemState) (h : 0 ≤ s.speed) :
    ((animate s).time =
      if s.isPlaying = true then s.time + 0.016 * s.speed else s.time) ∧
    s.time ≤ (animate s).time ∧
    (animate^[60] sampleState).time = 0.96 ∧
    |(animate^[60] sampleState).time - 1| ≤ 0.04 := by
  have h60 : (animate^[60] sampleState).time = 0.96 := by
    rw [iterate_animate_time sampleState rfl 60]
    show (0 : ℝ) + (60 : ℕ) * (0.016 * 1) = 0.96
    push_cast
    norm_num
  refine ⟨animate_time s, ?_, h60, ?_⟩
  · rw [animate_time]
    have h2 : 0 ≤ 0.016 * s.speed := mul_nonneg (by norm_num) h
    split_ifs
    · linarith
    · exact le_refl _
  · rw [h60, abs_le]
    norm_num

/-- Closed instance of `time_advance_per_frame` at `sampleState`. -/
theorem time_advance_witness :
    (0 : ℝ) ≤ sampleState.speed ∧
    sampleState.time ≤ (animate sampleState).time :=
  ⟨by norm_num [sampleState],
   (time_advance_per_frame sampleState (by norm_num [sampleState])).2.1⟩

/-- C7: the phase array is invariant under any number of frame advances,
from any state (hence under every preset and configuration), and an
explicit recreation through `reset` assigns the phases freshly from the
random stream. -/
theorem phases_invariant_under_frames (s : SystemState) (n : ℕ)
    (rng : ℕ → ℝ) :
    (animate^[n] s).pop.phases = s.pop.phases ∧
    (reset s rng).pop.phases = fun i => rng (9 * i + 8) * (2 * Real.pi) :=
  ⟨iterate_animate_phases s n, rfl⟩

theorem updateParticles_colors_off (s : SystemState)
    (h : s.colorTransition = false) :
    (updateParticles s).pop.colors = s.pop.colors := by
  funext i
  simp [updateParticles, h]

theorem animate_colors_off (s : SystemState) (h : s.colorTransition = false) :
    (animate s).pop.colors = s.pop.colors := by
  unfold animate
  split_ifs
  · exact updateParticles_colors_off _ h
  · rfl

/-- C8: with color transition disabled, the color array after any number
of frame advances (in particular 100) is exactly the array assigned at
creation. -/
theorem colors_fixed_without_transition (s : SystemState)
    (h : s.colorTransition = false) (n : ℕ) :
    (animate^[n] s).pop.colors = s.pop.colors := by
  induction n with
  | zero => rfl
  | succ n ih =>
    rw [Function.iterate_succ_apply',
      animate_colors_off _ (by rw [iterate_animate_colorTransition]; exact h),
      ih]

/-- Closed instance of `colors_fixed_without_transition`: 100 frames from
the concrete state with color transition off. -/
theorem colors_fixed_witness :
    (animate^[100] sampleStateStatic).pop.colors
      = sampleStateStatic.pop.colors :=
  colors_fixed_without_transition sampleStateStatic rfl 100

theorem explosionFactor_nonneg (t : ℝ) : 0 ≤ explosionFactor t := by
  have h := Real.neg_one_le_sin (t * 0.5)
  unfold explosionFactor
  linarith

theorem explosionFactor_le_one (t : ℝ) : explosionFactor t ≤ 1 := by
  have h := Real.sin_le_one (t * 0.5)
  unfold explosionFactor
  linarith

theorem explosionStep_eq (p : Vec3) (i : ℕ) (t : ℝ) (h : vecLength p ≠ 0) :
    applyExplosionStep p i t =
      ⟨p.x + p.x * (1 / vecLength p) * (explosionFactor t * 2),
       p.y + p.y * (1 / vecLength p) * (explosionFactor t * 2),
       p.z + p.z * (1 / vecLength p) * (explosionFactor t * 2)⟩ := by
  unfold applyExplosionStep applyExplosionAnimation
  rw [jsNormalize_of_ne p h]
  rfl

theorem vecLength_scale (c : ℝ) (p : Vec3) (hc : 0 ≤ c) :
    vecLength ⟨c * p.x, c * p.y, c * p.z⟩ = c * vecLength p := by
  show Real.sqrt ((c * p.x) ^ 2 + (c * p.y) ^ 2 + (c * p.z) ^ 2)
    = c * Real.sqrt (p.x ^ 2 + p.y ^ 2 + p.z ^ 2)
  rw [show (c * p.x) ^ 2 + (c * p.y) ^ 2 + (c * p.z) ^ 2
      = c ^ 2 * (p.x ^ 2 + p.y ^ 2 + p.z ^ 2) from by ring,
    Real.sqrt_mul (sq_nonneg c), Real.sqrt_sq hc]

theorem vecLength_explosionStep (p : Vec3) (i : ℕ) (t : ℝ)
    (h : 0 < vecLength p) :
    vecLength (applyExplosionStep p i t)
      = vecLength p + explosionFactor t * 2 := by
  have hne : vecLength p ≠ 0 := ne_of_gt h
  have hcomp : ∀ u : ℝ,
      u + u * (1 / vecLength p) * (explosionFactor t * 2)
        = (1 + explosionFactor t * 2 / vecLength p) * u := by
    intro u
    field_simp
    ring
  have hc : 0 ≤ 1 + explosionFactor t * 2 / vecLength p := by
    have h1 := explosionFactor_nonneg t
    have h2 : 0 ≤ explosionFactor t * 2 / vecLength p :=
      div_nonneg (by linarith) (le_of_lt h)
    linarith
  rw [explosionStep_eq p i t hne]
  rw [show (⟨p.x + p.x * (1 / vecLength p) * (explosionFactor t * 2),
        p.y + p.y * (1 / vecLength p) * (explosionFactor t * 2),
        p.z + p.z * (1 / vecLength p) * (explosionFactor t * 2)⟩ : Vec3)
      = ⟨(1 + explosionFactor t * 2 / vecLength p) * p.x,
         (1 + explosionFactor t * 2 / vecLength p) * p.y,
         (1 + explosionFactor t * 2 / vecLength p) * p.z⟩ from by
    rw [hcomp p.x, hcomp p.y, hcomp p.z]]
  rw [vecLength_scale _ p hc]
  field_simp

/-- C4: the explosion preset's outward factor `sin(time*0.5)*0.5 + 0.5`
lies in `[0, 1]` for every time; the preset (what the dispatch runs for
the name "explosion") adds that factor scaled by 2 along the particle's
own normalized direction-from-origin to the particle's current position,
so the `(x,y,z)` radius grows by exactly `2·factor` at each application,
and two successive applications compound: the radius gains both
displacements. -/
theorem explosion_factor_bounded_and_cumulative (p : Vec3) (i j : ℕ)
    (t u : ℝ) (h : 0 < vecLength p) :
    (0 ≤ explosionFactor t ∧ explosionFactor t ≤ 1) ∧
    applyPresetAnimation "explosion" p i t
      = some (applyExplosionStep p i t) ∧
    applyExplosionStep p i t =
      ⟨p.x + p.x * (1 / vecLength p) * (explosionFactor t * 2),
       p.y + p.y * (1 / vecLength p) * (explosionFactor t * 2),
       p.z + p.z * (1 / vecLength p) * (explosionFactor t * 2)⟩ ∧
    vecLength (applyExplosionStep p i t)
      = vecLength p + explosionFactor t * 2 ∧
    vecLength (applyExplosionStep (applyExplosionStep p i t) j u)
      = vecLength p + explosionFactor t * 2 + explosionFactor u * 2 := by
  have hne : vecLength p ≠ 0 := ne_of_gt h
  have h2 : 0 < vecLength (applyExplosionStep p i t) := by
    rw [vecLength_explosionStep p i t h]
    have := explosionFactor_nonneg t
    linarith
  refine ⟨⟨explosionFactor_nonneg t, explosionFactor_le_one t⟩, ?_,
    explosionStep_eq p i t hne, vecLength_explosionStep p i t h, ?_⟩
  · show applyExplosionAnimation p i t = some (applyExplosionStep p i t)
    obtain ⟨w, hw⟩ := Option.isSome_iff_exists.mp
      (applyExplosionAnimation_isSome p i t)
    unfold applyExplosionStep
    rw [hw]
    rfl
  · rw [vecLength_explosionStep _ j u h2, vecLength_explosionStep p i t h]

/-- Closed instance of `explosion_factor_bounded_and_cumulative` at the
particle `(3,0,0)`. -/
theorem explosion_witness :
    0 < vecLength ⟨3, 0, 0⟩ ∧
    vecLength (applyExplosionStep ⟨3, 0, 0⟩ 0 1)
      = vecLength ⟨3, 0, 0⟩ + explosionFactor 1 * 2 := by
  have h : 0 < vecLength (⟨3, 0, 0⟩ : Vec3) := by
    show 0 < Real.sqrt ((3 : ℝ) ^ 2 + 0 ^ 2 + 0 ^ 2)
    rw [show ((3 : ℝ) ^ 2 + 0 ^ 2 + 0 ^ 2 : ℝ) = 9 from by norm_num]
    exact Real.sqrt_pos.mpr (by norm_num)
  exact ⟨h,
    (explosion_factor_bounded_and_cumulative ⟨3, 0, 0⟩ 0 0 1 1 h).2.2.2.1⟩

theorem needsRecreate_iff (s : SystemState) (props : UpdateProps) :
    needsRecreate s props = true ↔
      (∃ c, props.particleCount = some c ∧ c ≠ s.particleCount) ∨
      (∃ sh, props.particleShape = some sh ∧ sh ≠ s.particleShape) := by
  unfold needsRecreate
  cases hc : props.particleCount <;> cases hs : props.particleShape <;>
    simp [bne_iff_ne]

/-- C6: a property update recreates the population exactly when it
supplies a `particleCount` or `particleShape` different from the current
value; when it does not (in particular for a `baseColor`-only update),
the population, hence every phase value, is left untouched; when it does,
the population is recreated from the merged configuration. -/
theorem updateProperties_recreation_condition (s : SystemState)
    (props : UpdateProps) (rng : ℕ → ℝ) :
    (needsRecreate s props = true ↔
      (∃ c, props.particleCount = some c ∧ c ≠ s.particleCount) ∨
      (∃ sh, props.particleShape = some sh ∧ sh ≠ s.particleShape)) ∧
    (needsRecreate s props = false →
      (updateProperties s props rng).pop = s.pop) ∧
    (needsRecreate s props = true →
      (updateProperties s props rng).pop =
        createParticles (assignProps s props).particleSize
          (assignProps s props).baseColor (assignProps s props).accentColor
          rng) := by
  refine ⟨needsRecreate_iff s props, ?_, ?_⟩
  · intro h
    simp [updateProperties, h]
    rfl
  · intro h
    simp [updateProperties, h]

/-- Closed instance of `updateProperties_recreation_condition`: updating
only `baseColor` does not recreate the population. -/
theorem updateProperties_witness :
    needsRecreate sampleState sampleBaseColorProps = false ∧
    (updateProperties sampleState sampleBaseColorProps sampleRng).pop
      = sampleState.pop :=
  ⟨rfl, (updateProperties_recreation_condition sampleState
    sampleBaseColorProps sampleRng).2.1 rfl⟩

theorem applyPresetAnimation_unknown (preset : String)
    (hp : preset ∉ (["default", "galaxy", "nebula", "explosion", "wave",
      "spiral", "aurora"] : List String)) (p : Vec3) (index : ℕ)
    (time : ℝ) : applyPresetAnimation preset p index time = some p := by
  simp only [List.mem_cons, List.not_mem_nil, or_false, not_or] at hp
  obtain ⟨h1, h2, h3, h4, h5, h6, h7⟩ := hp
  unfold applyPresetAnimation
  rw [if_neg h2, if_neg h3, if_neg h4, if_neg h5, if_neg h6, if_neg h7]

theorem getShapeType_unknown (shapeName : String)
    (hs : shapeName ∉ (["circle", "square", "star", "heart"] : List String)) :
    getShapeType shapeName = 0 := by
  simp only [List.mem_cons, List.not_mem_nil, or_false, not_or] at hs
  obtain ⟨g1, g2, g3, g4⟩ := hs
  unfold getShapeType
  rw [if_neg g1, if_neg g2, if_neg g3, if_neg g4]

/-- C9: a preset name outside the seven known names runs the `default`
branch, which leaves the position unchanged (and is defined, failing
nothing), and a shape name outside the four known names maps to shape
type 0 (circle). -/
theorem unknown_preset_and_shape_fallback (preset shapeName : String)
    (p : Vec3) (index : ℕ) (time : ℝ)
    (hp : preset ∉ (["default", "galaxy", "nebula", "explosion", "wave",
      "spiral", "aurora"] : List String))
    (hs : shapeName ∉ (["circle", "square", "star", "heart"] : List String)) :
    applyPresetAnimation preset p index time = some p ∧
    getShapeType shapeName = 0 :=
  ⟨applyPresetAnimation_unknown preset hp p index time,
   getShapeType_unknown shapeName hs⟩

/-- Closed instance of `unknown_preset_and_shape_fallback` at the unknown
names "plasma" and "hexagon". -/
theorem unknown_fallback_witness :
    applyPresetAnimation "plasma" ⟨1, 2, 3⟩ 0 0 = some ⟨1, 2, 3⟩ ∧
    getShapeType "hexagon" = 0 :=
  unknown_preset_and_shape_fallback "plasma" "hexagon" ⟨1, 2, 3⟩ 0 0
    (by decide) (by decide)

/-- C10: for each of the four known shape names, converting to the shape
type and back returns the original name; an unknown name maps to type 0,
and type 0 maps back to "circle". -/
theorem shape_name_roundtrip (name other : String)
    (hk : name ∈ (["circle", "square", "star", "heart"] : List String))
    (ho : other ∉ (["circle", "square", "star", "heart"] : List String)) :
    getShapeName (getShapeType name) = name ∧
    getShapeType other = 0 ∧
    getShapeName (getShapeType other) = "circle" := by
  refine ⟨?_, getShapeType_unknown other ho, ?_⟩
  · simp only [List.mem_cons, List.not_mem_nil, or_false] at hk
    rcases hk with h | h | h | h <;> subst h <;> rfl
  · rw [getShapeType_unknown other ho]
    rfl

/-- Closed instance of `shape_name_roundtrip` at "star" and "blob". -/
theorem shape_roundtrip_witness :
    getShapeName (getShapeType "star") = "star" ∧
    getShapeType "blob" = 0 ∧
    getShapeName (getShapeType "blob") = "circle" :=
  shape_name_roundtrip "star" "blob" (by decide) (by decide)

end ParticleSystem
